import Mathlib

/-!
Verification development for the property-listing fraud-detection client.
The definitions below are a shallow embedding of the client's core logic:
the CSV column auto-mapping heuristic and upload wizard of
src/pages/Upload.tsx, the session lifecycle of src/context/AuthContext.tsx,
and the batch-verification selection of the fraud-reports page.
-/

namespace PropertyEye

/-! ## Column auto-mapping (Upload.tsx, parseHeaders)

The source runs, for each required field, a single scan over the parsed
header list: `fields.find(h => h.toLowerCase() === field.key.toLowerCase()
|| h.toLowerCase().includes(field.key))`.  We embed JS `toLowerCase` as a
character-wise lowering and `includes` as substring containment. -/

/-- The characters of a string, lowered (JS `s.toLowerCase()` on the ASCII
headers the page handles). -/
def lowerChars (s : String) : List Char := s.data.map Char.toLower

/-- Character-list prefix test. -/
def isPrefixL : List Char → List Char → Bool
  | [], _ => true
  | _ :: _, [] => false
  | a :: as, b :: bs => a == b && isPrefixL as bs

/-- JS `hay.includes(needle)`: substring containment on character lists. -/
def containsSub (needle : List Char) : List Char → Bool
  | [] => needle.isEmpty
  | b :: bs => isPrefixL needle (b :: bs) || containsSub needle bs

/-- The predicate the source applies to each header `h` for a field key:
`h.toLowerCase() === key.toLowerCase() || h.toLowerCase().includes(key)`. -/
def hMatches (key h : String) : Bool :=
  (lowerChars h == lowerChars key) || containsSub key.data (lowerChars h)

/-- The source's auto-map lookup for one key: the first header of the list
satisfying `hMatches` (JS `Array.prototype.find`). -/
def autoMap (key : String) : List String → Option String
  | [] => none
  | h :: rest => if hMatches key h then some h else autoMap key rest

/-- Follows the spec's words, for comparison with `autoMap`: scan the header
list for the first exact case-insensitive match, and only if none exists
scan it again for the first header whose lowercase form contains the key as
a substring. -/
def autoMapSpecTwoPass (key : String) (headers : List String) : Option String :=
  match headers.find? (fun h => lowerChars h == lowerChars key) with
  | some h => some h
  | none => headers.find? (fun h => containsSub key.data (lowerChars h))

/-- One entry of REQUIRED_FIELDS: a canonical field key and its UI label. -/
structure FieldSpec where
  key : String
  label : String
deriving DecidableEq

/-- The REQUIRED_FIELDS constant of Upload.tsx. -/
def REQUIRED_FIELDS : List FieldSpec :=
  [⟨"address", "Property Address"⟩,
   ⟨"postcode", "Postcode"⟩,
   ⟨"client_name", "Client Name"⟩,
   ⟨"status", "Listing Status"⟩,
   ⟨"withdrawn_date", "Withdrawn Date"⟩]

/-- JS object update `{...m, [k]: v}` on a mapping kept as an association
list with one binding per key: overwrite in place, or append a new key. -/
def setKey : List (String × String) → String → String → List (String × String)
  | [], k, v => [(k, v)]
  | (k', v') :: rest, k, v =>
    if k' = k then (k, v) :: rest else (k', v') :: setKey rest k v

/-- JS object read `m[k]`. -/
def getKey : List (String × String) → String → Option String
  | [], _ => none
  | (k', v) :: rest, k => if k' = k then some v else getKey rest k

/-- The initial mapping parseHeaders builds: for each required field in
order, record the first auto-map match, leaving unmatched keys unset. -/
def initialMapping (headers : List String) : List (String × String) :=
  REQUIRED_FIELDS.foldl
    (fun m fld =>
      match autoMap fld.key headers with
      | some h => setKey m fld.key h
      | none => m)
    []

/-! ## Upload wizard state machine (Upload.tsx)

State: the `file`, `headers`, `mapping`, `step` and `uploadStats` hooks.
`handleUpload` embeds the submit handler; `uploadResolve` the resolution of
its request; `handleMappingChange` one select-box edit. -/

/-- The wizard's step hook: "upload" | "mapping" | "uploading" | "success". -/
inductive Step where
  | upload
  | mapping
  | uploading
  | success
deriving DecidableEq

/-- The upload page's local state (the file is an abstract handle). -/
structure UploadState where
  file : Option Nat
  headers : List String
  mapping : List (String × String)
  step : Step
  uploadStats : Option (Nat × Nat)
deriving DecidableEq

/-- JS falsiness of `mapping[f.key]`: the key is absent or bound to "". -/
def fieldMissing (m : List (String × String)) (k : String) : Bool :=
  match getKey m k with
  | none => true
  | some s => s == ""

/-- The `missingFields` filter of handleUpload. -/
def missingFields (m : List (String × String)) : List FieldSpec :=
  REQUIRED_FIELDS.filter (fun f => fieldMissing m f.key)

/-- What handleUpload does besides updating state: a validation toast, or
one POST of the file together with the serialized mapping. -/
inductive UploadAction where
  | toastError (msg : String)
  | postUpload (file : Nat) (fieldMapping : List (String × String))
deriving DecidableEq

/-- The submit handler handleUpload: no-op without a file; a validation
toast naming every missing field's label when the mapping is incomplete
(state untouched); otherwise step := uploading and one upload request. -/
def handleUpload (s : UploadState) : UploadState × Option UploadAction :=
  match s.file with
  | none => (s, none)
  | some f =>
    if 0 < (missingFields s.mapping).length then
      (s, some (UploadAction.toastError
        ("Please map all required fields: " ++
          String.intercalate ", " ((missingFields s.mapping).map FieldSpec.label))))
    else
      ({ s with step := Step.uploading },
        some (UploadAction.postUpload f s.mapping))

/-- Resolution of the upload request: success stores the returned statistics
and moves to the success step; failure only moves the step back to mapping. -/
def uploadResolve (s : UploadState) : Except String (Nat × Nat) → UploadState
  | Except.ok stats => { s with uploadStats := some stats, step := Step.success }
  | Except.error _ => { s with step := Step.mapping }

/-- One mapping edit: `setMapping(prev => ({...prev, [systemField]: csvHeader}))`. -/
def handleMappingChange (s : UploadState) (systemField csvHeader : String) :
    UploadState :=
  { s with mapping := setKey s.mapping systemField csvHeader }

/-! ## Session store (AuthContext.tsx)

`restore` embeds the startup effect as a function of the persisted token,
the result of decoding it, the current time, and the result of the one
profile-refresh request it may issue; it returns the final state together
with how many refresh requests were issued.  `stepStore`/`runStore` embed
the store as a small event system so that interleavings of login, logout
and the asynchronous refresh resolution can be examined. -/

/-- The user identity held in React state. -/
structure User where
  agency_id : String
  agency_name : String
  sub : String
deriving DecidableEq

/-- What jwtDecode yields from the persisted token. -/
structure Decoded where
  exp : Option Nat
  sub : String
  agency_name : Option String
deriving DecidableEq

/-- The /auth/me response body. -/
structure Profile where
  id : String
  name : String
deriving DecidableEq

/-- The source's expiry test `decoded.exp && decoded.exp * 1000 < Date.now()`:
JS truthiness makes an absent or zero exp claim skip the check. -/
def jsExpired (exp : Option Nat) (now : Nat) : Bool :=
  match exp with
  | none => false
  | some e => e != 0 && decide (e * 1000 < now)

/-- The auth provider's state: React's user and token hooks plus the
localStorage slot the token persists in. -/
structure AuthState where
  user : Option User
  token : Option String
  storage : Option String
  isLoading : Bool
deriving DecidableEq

/-- The startup effect of AuthProvider, run to completion: read the
persisted token, decode it, discard it when expired or undecodable,
otherwise optimistically authenticate and issue exactly one profile
refresh whose failure clears everything.  The second component counts the
profile-refresh requests issued. -/
def restore (storage : Option String) (decode : Except Unit Decoded)
    (now : Nat) (refresh : Except Unit Profile) : AuthState × Nat :=
  match storage with
  | none => ({ user := none, token := none, storage := none, isLoading := false }, 0)
  | some tok =>
    match decode with
    | Except.error _ =>
      ({ user := none, token := none, storage := none, isLoading := false }, 0)
    | Except.ok d =>
      if jsExpired d.exp now then
        ({ user := none, token := none, storage := none, isLoading := false }, 0)
      else
        match refresh with
        | Except.ok p =>
          ({ user := some ⟨p.id, p.name, p.id⟩, token := some tok,
             storage := some tok, isLoading := false }, 1)
        | Except.error _ =>
          ({ user := none, token := none, storage := none, isLoading := false }, 1)

/-- The store's events: a login call, a logout call, the synchronous part
of the startup effect, and the later resolution of the profile refresh it
issued.  Decode result, clock and refresh result are event data. -/
inductive AuthEvent where
  | login (tok : String) (u : User)
  | logout
  | restoreStart (decode : Except Unit Decoded) (now : Nat)
  | refreshResolve (r : Except Unit Profile)

/-- Store state for the event system; pending records an in-flight profile
refresh. -/
structure StoreState where
  user : Option User
  token : Option String
  storage : Option String
  pending : Bool
deriving DecidableEq

/-- Initial state: nothing in React state, whatever localStorage holds. -/
def initStore (persisted : Option String) : StoreState :=
  { user := none, token := none, storage := persisted, pending := false }

/-- One event, exactly as the source handles it.  Note that the refresh
continuation updates the user unconditionally: nothing checks whether a
logout ran while the request was in flight. -/
def stepStore (s : StoreState) : AuthEvent → StoreState
  | AuthEvent.login tok u =>
    { s with storage := some tok, token := some tok, user := some u }
  | AuthEvent.logout =>
    { s with storage := none, token := none, user := none }
  | AuthEvent.restoreStart decode now =>
    match s.storage with
    | none => s
    | some tok =>
      match decode with
      | Except.error _ => { s with storage := none }
      | Except.ok d =>
        if jsExpired d.exp now then { s with storage := none }
        else { s with token := some tok,
                      user := some ⟨d.sub, d.agency_name.getD "Agency", d.sub⟩,
                      pending := true }
  | AuthEvent.refreshResolve r =>
    if s.pending then
      match r with
      | Except.ok p => { s with user := some ⟨p.id, p.name, p.id⟩, pending := false }
      | Except.error _ =>
        { s with storage := none, token := none, user := none, pending := false }
    else s

/-- A whole event sequence. -/
def runStore (s : StoreState) (evs : List AuthEvent) : StoreState :=
  evs.foldl stepStore s

/-- The provider's `isAuthenticated: !!user`. -/
def isAuthenticated (s : StoreState) : Bool := s.user.isSome

/-! ## Batch verification (Reports page)

`highConfidenceIds` embeds the selection inside
handleVerifyAllHighConfidence; `handleVerifyAllHighConfidence` the whole
click handler, with the user's confirm() answer as a parameter. -/

/-- A report's verification status. -/
inductive VerificationStatus where
  | suspicious
  | confirmed_fraud
  | not_fraud
  | error
deriving DecidableEq

/-- The fields of a fraud report the coordinator reads. -/
structure FraudReport where
  id : String
  confidence_score : ℚ
  verification_status : VerificationStatus
deriving DecidableEq

/-- The filter of handleVerifyAllHighConfidence:
`r.confidence_score >= 0.85 && r.verification_status === 'suspicious'`. -/
def highConfidencePred (r : FraudReport) : Bool :=
  decide ((0.85 : ℚ) ≤ r.confidence_score) &&
    decide (r.verification_status = VerificationStatus.suspicious)

/-- The high-confidence pending selection: ids of the reports passing the
filter, in list order. -/
def highConfidenceIds (reports : List FraudReport) : List String :=
  (reports.filter highConfidencePred).map FraudReport.id

/-- What one click of "Verify High Confidence" amounts to. -/
inductive VerifyOutcome where
  | noReports
  | nothingToVerify (msg : String)
  | cancelled
  | request (matchIds : List String)
deriving DecidableEq

/-- The click handler: silently returns without a loaded report list;
informs the user and stops when the selection is empty; otherwise asks for
confirmation and sends all selected ids in a single request. -/
def handleVerifyAllHighConfidence (reports : Option (List FraudReport))
    (confirmed : Bool) : VerifyOutcome :=
  match reports with
  | none => VerifyOutcome.noReports
  | some rs =>
    if (highConfidenceIds rs).length = 0 then
      VerifyOutcome.nothingToVerify "No high confidence suspicious matches to verify."
    else if confirmed then VerifyOutcome.request (highConfidenceIds rs)
    else VerifyOutcome.cancelled

/-- Whether an outcome reaches the network. -/
def issuesRequest : VerifyOutcome → Bool
  | VerifyOutcome.request _ => true
  | _ => false

/-! ## Auxiliary definitions for the theorems below -/

/-- Well-formed event data: logins carry a non-empty token and subject,
accepted decodes a non-empty sub claim, successful refreshes a non-empty id. -/
def goodEvent : AuthEvent → Bool
  | AuthEvent.login tok u => tok != "" && u.sub != ""
  | AuthEvent.restoreStart (Except.ok d) _ => d.sub != ""
  | AuthEvent.refreshResolve (Except.ok p) => p.id != ""
  | _ => true

/-- Invariant: any user held in store state has a non-empty subject id. -/
def subInv (s : StoreState) : Prop := ∀ u, s.user = some u → u.sub ≠ ""

/-- A mapping with every required key but postcode bound. -/
def c3mapping : List (String × String) :=
  [("address", "A"), ("client_name", "C"), ("status", "S"), ("withdrawn_date", "W")]

/-- A Mapping-step state whose mapping misses exactly the postcode key. -/
def c3state : UploadState :=
  { file := some 0, headers := ["A", "C", "S", "W"], mapping := c3mapping,
    step := Step.mapping, uploadStats := none }

/-- A Mapping-step state with a complete mapping. -/
def c4state : UploadState :=
  { file := some 7, headers := ["a", "p", "c", "s", "w"],
    mapping := [("address", "a"), ("postcode", "p"), ("client_name", "c"),
      ("status", "s"), ("withdrawn_date", "w")],
    step := Step.mapping, uploadStats := none }

/-- A Mapping-step state binding every required key to the same column. -/
def dupState : UploadState :=
  { file := some 0, headers := ["Col"],
    mapping := [("address", "Col"), ("postcode", "Col"), ("client_name", "Col"),
      ("status", "Col"), ("withdrawn_date", "Col")],
    step := Step.mapping, uploadStats := none }

/-! ## Helper lemmas -/

/-- Updating a key makes it readable with the written value. -/
theorem getKey_setKey_self (m : List (String × String)) (k v : String) :
    getKey (setKey m k v) k = some v := by
  induction m with
  | nil => simp [setKey, getKey]
  | cons p rest ih =>
    obtain ⟨k', v'⟩ := p
    by_cases h : k' = k
    · simp [setKey, getKey, h]
    · simp [setKey, getKey, h, ih]

/-- Updating a key leaves every other key unchanged. -/
theorem getKey_setKey_other (m : List (String × String)) (k v k2 : String)
    (h : k2 ≠ k) : getKey (setKey m k v) k2 = getKey m k2 := by
  induction m with
  | nil => simp [setKey, getKey, Ne.symm h]
  | cons p rest ih =>
    obtain ⟨k', v'⟩ := p
    by_cases hk : k' = k
    · subst hk
      simp [setKey, getKey, Ne.symm h]
    · simp [setKey, getKey, hk, ih]

/-- One store event preserves the non-empty-subject invariant when its data
is well-formed. -/
theorem stepStore_subInv (s : StoreState) (e : AuthEvent)
    (hs : subInv s) (he : goodEvent e = true) : subInv (stepStore s e) := by
  cases e with
  | login tok u =>
    intro u' hu'
    simp only [stepStore] at hu'
    obtain rfl : u = u' := by simpa using hu'
    have h2 : ¬tok = "" ∧ ¬u.sub = "" := by
      simpa [goodEvent, Bool.and_eq_true, bne_iff_ne] using he
    exact h2.2
  | logout =>
    intro u' hu'
    simp [stepStore] at hu'
  | restoreStart decode now =>
    intro u' hu'
    cases hst : s.storage with
    | none =>
      rw [show stepStore s (AuthEvent.restoreStart decode now) = s by
        simp [stepStore, hst]] at hu'
      exact hs u' hu'
    | some tok =>
      cases decode with
      | error err =>
        have : (stepStore s (AuthEvent.restoreStart (Except.error err) now)).user
            = s.user := by simp [stepStore, hst]
        rw [this] at hu'
        exact hs u' hu'
      | ok d =>
        by_cases hexp : jsExpired d.exp now = true
        · have : (stepStore s (AuthEvent.restoreStart (Except.ok d) now)).user
              = s.user := by simp [stepStore, hst, hexp]
          rw [this] at hu'
          exact hs u' hu'
        · have hexp' : jsExpired d.exp now = false := by simpa using hexp
          have : (stepStore s (AuthEvent.restoreStart (Except.ok d) now)).user
              = some ⟨d.sub, d.agency_name.getD "Agency", d.sub⟩ := by
            simp [stepStore, hst, hexp']
          rw [this] at hu'
          obtain rfl : (⟨d.sub, d.agency_name.getD "Agency", d.sub⟩ : User) = u' := by
            simpa using hu'
          simpa [bne_iff_ne] using
            (by simpa [goodEvent] using he : (d.sub != "") = true)
  | refreshResolve r =>
    intro u' hu'
    by_cases hp : s.pending = true
    · cases r with
      | ok p =>
        have : (stepStore s (AuthEvent.refreshResolve (Except.ok p))).user
            = some ⟨p.id, p.name, p.id⟩ := by simp [stepStore, hp]
        rw [this] at hu'
        obtain rfl : (⟨p.id, p.name, p.id⟩ : User) = u' := by simpa using hu'
        simpa [bne_iff_ne] using
          (by simpa [goodEvent] using he : (p.id != "") = true)
      | error err =>
        have : (stepStore s (AuthEvent.refreshResolve (Except.error err))).user
            = none := by simp [stepStore, hp]
        rw [this] at hu'
        exact absurd hu' (by simp)
    · have hp' : s.pending = false := by simpa using hp
      rw [show stepStore s (AuthEvent.refreshResolve r) = s by
        simp [stepStore, hp']] at hu'
      exact hs u' hu'

/-- A whole well-formed event sequence preserves the invariant. -/
theorem runStore_subInv (s : StoreState) (evs : List AuthEvent)
    (hs : subInv s) (hgood : ∀ e ∈ evs, goodEvent e = true) :
    subInv (runStore s evs) := by
  induction evs generalizing s with
  | nil => exact hs
  | cons e rest ih =>
    have h1 : runStore s (e :: rest) = runStore (stepStore s e) rest := by
      simp [runStore]
    rw [h1]
    exact ih (stepStore s e)
      (stepStore_subInv s e hs (hgood e (List.mem_cons_self _ _)))
      (fun e' he' => hgood e' (List.mem_cons_of_mem _ he'))

/-! ## Claim theorems -/

/-- C1 counterexample: for the headers ["home_address", "address"] and key
"address", the source's single-pass scan selects the earlier substring-only
match "home_address", while the two-pass rule the claim states would select
the later exact match "address"; the two disagree, so an exact match later
in the list is not preferred. -/
theorem C1_exact_later_not_preferred :
    autoMap "address" ["home_address", "address"] = some "home_address" ∧
    autoMapSpecTwoPass "address" ["home_address", "address"] = some "address" ∧
    autoMap "address" ["home_address", "address"] ≠
      autoMapSpecTwoPass "address" ["home_address", "address"] := by decide

/-- C1 (amended): the auto-mapping runs a single in-order scan per canonical
key and selects the first header whose lowercase form equals the key or
contains it as a substring, with no preference for exact matches over
earlier substring matches; a key with no matching header is left unset. -/
theorem C1_auto_mapping_single_pass (key : String) (H : List String) :
    (autoMap key H = none ↔ ∀ h ∈ H, hMatches key h = false) ∧
    (∀ h, autoMap key H = some h → hMatches key h = true ∧
      ∃ pre post, H = pre ++ h :: post ∧ ∀ h' ∈ pre, hMatches key h' = false) := by
  induction H with
  | nil => simp [autoMap]
  | cons a rest ih =>
    by_cases ha : hMatches key a = true
    · constructor
      · simp [autoMap, ha]
      · intro h hsome
        have hah : a = h := by simpa [autoMap, ha] using hsome
        subst hah
        exact ⟨ha, [], rest, rfl, by simp⟩
    · have ha' : hMatches key a = false := by simpa using ha
      constructor
      · rw [show autoMap key (a :: rest) = autoMap key rest by simp [autoMap, ha']]
        constructor
        · intro hnone h hmem
          rcases List.mem_cons.mp hmem with h1 | h2
          · subst h1; exact ha'
          · exact ih.1.mp hnone h h2
        · intro hall
          exact ih.1.mpr (fun h hm => hall h (List.mem_cons_of_mem _ hm))
      · intro h hsome
        have hs : autoMap key rest = some h := by simpa [autoMap, ha'] using hsome
        obtain ⟨hm, pre, post, heq, hpre⟩ := ih.2 h hs
        refine ⟨hm, a :: pre, post, by simp [heq], ?_⟩
        intro h' hh'
        rcases List.mem_cons.mp hh' with h1 | h2
        · subst h1; exact ha'
        · exact hpre h' h2

/-- C2 counterexample: on the header list ["Addr", "PostCode", "Client",
"Status", "Withdrawn"], the keys address, client_name and withdrawn_date
stay unset — the substring test asks whether the lowered header contains
the key, and "addr" does not contain "address" — so the claimed complete
mapping is not produced. -/
theorem C2_three_keys_unmapped :
    getKey (initialMapping ["Addr", "PostCode", "Client", "Status", "Withdrawn"])
      "address" = none ∧
    getKey (initialMapping ["Addr", "PostCode", "Client", "Status", "Withdrawn"])
      "client_name" = none ∧
    getKey (initialMapping ["Addr", "PostCode", "Client", "Status", "Withdrawn"])
      "withdrawn_date" = none := by decide

/-- C2 (amended): on the header list ["Addr", "PostCode", "Client",
"Status", "Withdrawn"], the auto-mapping resolves exactly postcode to
"PostCode" and status to "Status" (their exact matches); the other three
canonical keys are left unset. -/
theorem C2_headers_mapping_resolved :
    initialMapping ["Addr", "PostCode", "Client", "Status", "Withdrawn"] =
      [("postcode", "PostCode"), ("status", "Status")] := by decide

/-- C3: in a Mapping-step state holding a file, submission with any
canonical key unmapped (absent or empty) produces only a validation toast
that lists exactly the labels of the missing fields, performs no request
and leaves the state unchanged at Mapping; with all five keys mapped to
non-empty headers it moves the step to uploading and issues exactly one
upload request carrying the file and the mapping. -/
theorem C3_submit_validation (s : UploadState) (f : Nat)
    (hstep : s.step = Step.mapping) (hfile : s.file = some f) :
    (missingFields s.mapping ≠ [] →
      handleUpload s = (s, some (UploadAction.toastError
        ("Please map all required fields: " ++
          String.intercalate ", " ((missingFields s.mapping).map FieldSpec.label)))) ∧
      (handleUpload s).fst.step = Step.mapping) ∧
    (missingFields s.mapping = [] →
      handleUpload s = ({ s with step := Step.uploading },
        some (UploadAction.postUpload f s.mapping))) := by
  obtain ⟨file, headers, mapping, step, stats⟩ := s
  simp only at hstep hfile
  subst hstep; subst hfile
  constructor
  · intro hmiss
    have hlen : 0 < (missingFields mapping).length :=
      List.length_pos.mpr hmiss
    constructor
    · simp [handleUpload, hlen]
    · simp [handleUpload, hlen]
  · intro hnone
    simp [handleUpload, hnone]

/-- C3 witness: a Mapping-step state missing only the postcode key fails
validation with a toast listing exactly "Postcode" and stays at Mapping. -/
theorem C3_submit_validation_witness :
    missingFields c3mapping ≠ [] ∧
    handleUpload c3state = (c3state, some (UploadAction.toastError
      ("Please map all required fields: " ++
        String.intercalate ", " ((missingFields c3mapping).map FieldSpec.label)))) ∧
    String.intercalate ", " ((missingFields c3mapping).map FieldSpec.label) =
      "Postcode" := by
  refine ⟨by decide, ((C3_submit_validation c3state 0 rfl rfl).1 (by decide)).1,
    by decide⟩

/-- C4: from a Mapping-step state with a complete mapping, a submission
that fails lands back in exactly the pre-submission state: the step returns
to Mapping and file, headers, mapping and statistics are untouched. -/
theorem C4_failed_submission_roundtrip (s : UploadState) (f : Nat) (e : String)
    (hstep : s.step = Step.mapping) (hfile : s.file = some f)
    (hcomplete : missingFields s.mapping = []) :
    (handleUpload s).fst.step = Step.uploading ∧
    uploadResolve (handleUpload s).fst (Except.error e) = s := by
  obtain ⟨file, headers, mapping, step, stats⟩ := s
  simp only at hstep hfile
  subst hstep; subst hfile
  refine ⟨by simp [handleUpload, hcomplete], ?_⟩
  simp [handleUpload, hcomplete, uploadResolve]

/-- C4 witness: a concrete complete Mapping-step state submits, fails, and
is restored exactly. -/
theorem C4_failed_submission_roundtrip_witness :
    (handleUpload c4state).fst.step = Step.uploading ∧
    uploadResolve (handleUpload c4state).fst (Except.error "boom") = c4state :=
  C4_failed_submission_roundtrip c4state 7 "boom" rfl rfl (by decide)

/-- C5 counterexample: a token whose exp claim is 0 — a time in the past
(0 * 1000 < 1000 = now) — is not discarded: the JS truthiness test skips a
zero exp, one profile refresh is issued, and a successful refresh leaves
the session authenticated, contradicting the claim that any past expiry
claim yields Unauthenticated with no refresh. -/
theorem C5_exp_zero_refreshed :
    (restore (some "tok") (Except.ok ⟨some 0, "sub1", none⟩) 1000
      (Except.ok ⟨"id1", "AgencyName"⟩)).snd = 1 ∧
    (restore (some "tok") (Except.ok ⟨some 0, "sub1", none⟩) 1000
      (Except.ok ⟨"id1", "AgencyName"⟩)).fst.user =
      some ⟨"id1", "AgencyName", "id1"⟩ ∧
    0 * 1000 < 1000 := by decide

/-- C5 (amended): restore discards the token with no refresh and ends
Unauthenticated with storage cleared whenever the decoded expiry claim is
present, nonzero and in the past; whenever the token is not treated as
expired, exactly one profile refresh is issued; and a failing refresh ends
Unauthenticated with storage cleared. -/
theorem C5_restore_behavior (tok : String) (d : Decoded) (now : Nat)
    (refresh : Except Unit Profile) :
    (∀ e, d.exp = some e → e ≠ 0 → e * 1000 < now →
      restore (some tok) (Except.ok d) now refresh =
        ({ user := none, token := none, storage := none, isLoading := false }, 0)) ∧
    (jsExpired d.exp now = false →
      (restore (some tok) (Except.ok d) now refresh).snd = 1) ∧
    (jsExpired d.exp now = false → ∀ err, refresh = Except.error err →
      (restore (some tok) (Except.ok d) now refresh).fst =
        { user := none, token := none, storage := none, isLoading := false }) := by
  refine ⟨?_, ?_, ?_⟩
  · intro e he hne hlt
    have hx : jsExpired d.exp now = true := by
      simp [jsExpired, he, hlt, bne_iff_ne, hne]
    simp [restore, hx]
  · intro hval
    cases refresh with
    | ok p => simp [restore, hval]
    | error err => simp [restore, hval]
  · intro hval err herr
    subst herr
    simp [restore, hval]

/-- C6 counterexample: login with an empty token and an empty subject id is
accepted unchecked, leaving the store authenticated while the token is the
empty string and the subject id is empty. -/
theorem C6_empty_login_authenticated :
    isAuthenticated (runStore (initStore none)
      [AuthEvent.login "" ⟨"", "", ""⟩]) = true ∧
    (runStore (initStore none) [AuthEvent.login "" ⟨"", "", ""⟩]).token =
      some "" ∧
    (runStore (initStore none) [AuthEvent.login "" ⟨"", "", ""⟩]).user =
      some ⟨"", "", ""⟩ := by decide

/-- C6 (amended): provided every login carries a non-empty token and
subject, every accepted decode a non-empty sub claim and every successful
refresh a non-empty id, then in every reachable state that reports
authenticated the stored user's subject id is non-empty.  The token half of
the claimed invariant is not enforced by the store itself. -/
theorem C6_authenticated_sub_nonempty (persisted : Option String)
    (evs : List AuthEvent)
    (hgood : ∀ e ∈ evs, goodEvent e = true)
    (hauth : isAuthenticated (runStore (initStore persisted) evs) = true) :
    ∃ u, (runStore (initStore persisted) evs).user = some u ∧ u.sub ≠ "" := by
  have hinv : subInv (runStore (initStore persisted) evs) :=
    runStore_subInv (initStore persisted) evs
      (fun u hu => by simp [initStore] at hu) hgood
  obtain ⟨u, hu⟩ := Option.isSome_iff_exists.mp hauth
  exact ⟨u, hu, hinv u hu⟩

/-- C6 witness: after a well-formed login the authenticated state's subject
id is non-empty. -/
theorem C6_authenticated_sub_nonempty_witness :
    ∃ u, (runStore (initStore none)
      [AuthEvent.login "tok1" ⟨"a1", "n1", "s1"⟩]).user = some u ∧ u.sub ≠ "" :=
  C6_authenticated_sub_nonempty none [AuthEvent.login "tok1" ⟨"a1", "n1", "s1"⟩]
    (by decide) (by decide)

/-- C7: the high-confidence pending selection contains exactly the ids of
reports that are suspicious with confidence at least 0.85, preserves the
report list's order (its output is a sublist of the ids in order), and is
deterministic; it is a pure function of the list, mutating nothing. -/
theorem C7_high_confidence_selection (l : List FraudReport) :
    (∀ i : String, i ∈ highConfidenceIds l ↔
      ∃ r, r ∈ l ∧ r.id = i ∧
        r.verification_status = VerificationStatus.suspicious ∧
        (0.85 : ℚ) ≤ r.confidence_score) ∧
    List.Sublist (highConfidenceIds l) (l.map FraudReport.id) ∧
    highConfidenceIds l = highConfidenceIds l := by
  refine ⟨?_, ?_, rfl⟩
  · intro i
    simp only [highConfidenceIds, List.mem_map, List.mem_filter,
      highConfidencePred, Bool.and_eq_true, decide_eq_true_eq]
    constructor
    · rintro ⟨r, ⟨hmem, hconf, hstat⟩, hid⟩
      exact ⟨r, hmem, hid, hstat, hconf⟩
    · rintro ⟨r, hmem, hid, hstat, hconf⟩
      exact ⟨r, ⟨hmem, hconf, hstat⟩, hid⟩
  · exact List.Sublist.map FraudReport.id (List.filter_sublist l)

/-- C8: when the high-confidence selection over the loaded reports is
empty, the bulk-verify click only informs the user that there is nothing to
verify and issues no network request, whatever the confirm dialog would
have answered. -/
theorem C8_empty_selection_no_request (reports : List FraudReport)
    (confirmed : Bool)
    (hempty : highConfidenceIds reports = []) :
    handleVerifyAllHighConfidence (some reports) confirmed =
      VerifyOutcome.nothingToVerify
        "No high confidence suspicious matches to verify." ∧
    issuesRequest (handleVerifyAllHighConfidence (some reports) confirmed) =
      false := by
  constructor
  · simp [handleVerifyAllHighConfidence, hempty]
  · simp [handleVerifyAllHighConfidence, hempty, issuesRequest]

/-- C8 witness: one suspicious report below the threshold yields an empty
selection, the informational outcome, and no request. -/
theorem C8_empty_selection_no_request_witness :
    handleVerifyAllHighConfidence
      (some [⟨"r1", 1/2, VerificationStatus.suspicious⟩]) true =
      VerifyOutcome.nothingToVerify
        "No high confidence suspicious matches to verify." ∧
    issuesRequest (handleVerifyAllHighConfidence
      (some [⟨"r1", 1/2, VerificationStatus.suspicious⟩]) true) = false :=
  C8_empty_selection_no_request [⟨"r1", 1/2, VerificationStatus.suspicious⟩] true
    (by norm_num [highConfidenceIds, highConfidencePred, List.filter])

/-- C9: the code applies a stale refresh.  Starting from a persisted token,
if restore begins (valid decode, refresh in flight), logout completes, and
the refresh then resolves successfully, the continuation sets the user
unconditionally: the final state is authenticated with a user but a null
token and cleared storage — the resolution is not discarded as the claim
requires. -/
theorem C9_stale_refresh_applied :
    runStore (initStore (some "tok"))
      [AuthEvent.restoreStart (Except.ok ⟨none, "s1", some "AgencyA"⟩) 0,
       AuthEvent.logout,
       AuthEvent.refreshResolve (Except.ok ⟨"s1", "AgencyA"⟩)] =
      { user := some ⟨"s1", "AgencyA", "s1"⟩, token := none, storage := none,
        pending := false } ∧
    isAuthenticated (runStore (initStore (some "tok"))
      [AuthEvent.restoreStart (Except.ok ⟨none, "s1", some "AgencyA"⟩) 0,
       AuthEvent.logout,
       AuthEvent.refreshResolve (Except.ok ⟨"s1", "AgencyA"⟩)]) = true := by decide

/-- C10: mapping validation imposes no uniqueness constraint and mapping
edits are pointwise: updating one key reads back the written header and
leaves every other key unchanged, and any state whose five canonical keys
are all bound to non-empty headers — duplicates included — proceeds to
uploading and sends that mapping. -/
theorem C10_no_uniqueness_constraint (m : List (String × String))
    (k v k2 : String) (s : UploadState) (f : Nat)
    (hfile : s.file = some f)
    (hall : missingFields s.mapping = []) :
    getKey (setKey m k v) k = some v ∧
    (k2 ≠ k → getKey (setKey m k v) k2 = getKey m k2) ∧
    handleUpload s = ({ s with step := Step.uploading },
      some (UploadAction.postUpload f s.mapping)) := by
  refine ⟨getKey_setKey_self m k v, fun h => getKey_setKey_other m k v k2 h, ?_⟩
  obtain ⟨file, headers, mapping, step, stats⟩ := s
  simp only at hfile
  subst hfile
  simp [handleUpload, hall]

/-- C10 witness: a mapping binding all five keys to the same column "Col"
passes validation and is sent; a single-key edit leaves the other keys
untouched. -/
theorem C10_no_uniqueness_constraint_witness :
    getKey (setKey [("address", "Col")] "postcode" "Col") "postcode" =
      some "Col" ∧
    getKey (setKey [("address", "Col")] "postcode" "Col") "address" =
      getKey [("address", "Col")] "address" ∧
    handleUpload dupState = ({ dupState with step := Step.uploading },
      some (UploadAction.postUpload 0 dupState.mapping)) :=
  ⟨(C10_no_uniqueness_constraint [("address", "Col")] "postcode" "Col" "address"
      dupState 0 rfl (by decide)).1,
   (C10_no_uniqueness_constraint [("address", "Col")] "postcode" "Col" "address"
      dupState 0 rfl (by decide)).2.1 (by decide),
   (C10_no_uniqueness_constraint [("address", "Col")] "postcode" "Col" "address"
      dupState 0 rfl (by decide)).2.2⟩

end PropertyEye
